import Mathlib

/-!
Shallow embedding of the OpenFeature PostHog provider (`provider.go` of
`dhaus67/openfeature-posthog-go`) and proofs about its evaluation pipeline.

The provider bridges the OpenFeature `FeatureProvider` interface to the
PostHog client's `GetFeatureFlag` call.  Every evaluation entry point runs
the same pipeline: translate the evaluation context into a
`FeatureFlagPayload`, call the client once, classify the reply
(transport error / boolean not-found sentinel / found string), and coerce
the found string into the statically expected type.

Modelling conventions:
* Go `interface{}` replies from the client are modelled by `GoVal`
  (boolean, string, or anything else carrying its `fmt %v` rendering).
* Go runtime panics (unchecked type assertions `distinctID.(string)` and
  `res.(string)`) are modelled by explicit `fault` outcomes.
* JSON numbers and Go float64 parse results are kept as exact rationals;
  IEEE-754 rounding of in-range values is abstracted away, while the
  success/failure behaviour of the parsers (syntax and overflow) follows
  the Go implementations.
-/

set_option maxRecDepth 20000

namespace PosthogProvider

/-- A JSON-like value, the universe used for PostHog group/property data and
for decoded JSON flag values.  Numbers are kept as exact rationals (Go
decodes JSON numbers into `float64`; rounding of in-range values is
abstracted, and Go's rejection of numbers overflowing `float64` during
`Unmarshal` is not modelled). -/
inductive Json where
  | null
  | bool (b : Bool)
  | num (q : ℚ)
  | str (s : String)
  | arr (elems : List Json)
  | obj (fields : List (String × Json))

/-- `posthog.Groups` (a `map[string]interface{}`), carried opaquely by the
provider: it is only type-checked and passed through. -/
def PosthogGroups := List (String × Json)

/-- `posthog.Properties` (a `map[string]interface{}`), carried opaquely. -/
def PosthogProps := List (String × Json)

/-- The provider's `PostHogProperties` struct. -/
structure PostHogProperties where
  GroupProperties : List (String × PosthogProps)
  PersonProperties : PosthogProps

/-- `posthog.FeatureFlagPayload`: the lookup request sent to the client. -/
structure FeatureFlagPayload where
  Key : String
  DistinctId : String
  Groups : PosthogGroups
  PersonProperties : PosthogProps
  GroupProperties : List (String × PosthogProps)

/-- A value stored in the OpenFeature flattened evaluation context
(`map[string]interface{}`).  `other` stands for a value of any dynamic type
besides the three the provider inspects. -/
inductive CtxVal where
  | str (s : String)
  | groups (g : PosthogGroups)
  | props (p : PostHogProperties)
  | other (rendered : String)

/-- `openfeature.FlattenedContext`, as an association list. -/
def FlattenedContext := List (String × CtxVal)

/-- `openfeature.TargetingKey`, the reserved subject-identifier key. -/
def DistinctIDContextKey : String := "targetingKey"

/-- The reserved evaluation-context key for PostHog groups. -/
def GroupsContextKey : String := "groups"

/-- The reserved evaluation-context key for PostHog properties. -/
def PropertiesContextKey : String := "properties"

/-- The provider's sentinel errors (`errMissingTargetKey`,
`errInvalidGroups`, `errInvalidProperties`). -/
inductive GoErr where
  | missingTargetKey
  | invalidGroups
  | invalidProperties
deriving DecidableEq

/-- `err.Error()` for the sentinel errors. -/
def GoErr.message : GoErr → String
  | .missingTargetKey => "missing target key in evaluation context"
  | .invalidGroups => "invalid groups in evaluation context"
  | .invalidProperties => "invalid properties in evaluation context"

/-- Result of `translateFeatureFlagPayload`.  `fault` models the Go runtime
panic raised by the unchecked assertion `distinctID.(string)`. -/
inductive TranslateResult where
  | ok (payload : FeatureFlagPayload)
  | err (e : GoErr)
  | fault

/-- A reply value from `posthog.Client.GetFeatureFlag` (an `interface{}`).
`other` is any non-boolean, non-string value, carrying its `fmt %v`
rendering. -/
inductive GoVal where
  | bool (b : Bool)
  | str (s : String)
  | other (rendered : String)

/-- `fmt %v` rendering of a reply value. -/
def goDisplay : GoVal → String
  | .bool true => "true"
  | .bool false => "false"
  | .str s => s
  | .other r => r

/-- OpenFeature resolution reasons used by the provider. -/
inductive Reason where
  | targetingMatchReason
  | defaultReason
  | errorReason

/-- OpenFeature resolution-error kinds used by the provider. -/
inductive ErrorCode where
  | targetingKeyMissing
  | general
  | flagNotFound
  | typeMismatch

/-- An `openfeature.ResolutionError` (kind plus message). -/
structure ResolutionError where
  code : ErrorCode
  message : String

/-- A typed `openfeature.ProviderResolutionDetail` together with the
resolved value: value, reason, and the optional resolution error. -/
structure ResolutionDetail (α : Type) where
  value : α
  reason : Reason
  resolutionError : Option ResolutionError

/-- Outcome of one evaluation entry point: a normal resolution detail, or a
Go runtime panic (`fault`). -/
inductive EvalOutcome (α : Type) where
  | ok (detail : ResolutionDetail α)
  | fault

/-! ### Go `strconv` models: quoting and scalar parsing -/

/-- Lower-case a Latin letter (Go's `lower`, used for case-insensitive
matching against lowercase letters). -/
def lowerChar (c : Char) : Char :=
  if 65 ≤ c.toNat ∧ c.toNat ≤ 90 then Char.ofNat (c.toNat + 32) else c

/-- Lower-case hexadecimal digit for a value below 16 (Go's `lowerhex`). -/
def hexDigitChar (n : Nat) : Char :=
  if n < 10 then Char.ofNat (48 + n) else Char.ofNat (87 + n)

/-- One character of Go's `%q` string quoting (`strconv.Quote`).  Faithful
for ASCII characters; non-ASCII printable runes are kept as-is (Go would
additionally escape non-printable runes, which is not modelled). -/
def goQuoteChar (c : Char) : String :=
  if c = '"' then "\\\""
  else if c = '\\' then "\\\\"
  else if c = Char.ofNat 7 then "\\a"
  else if c = Char.ofNat 8 then "\\b"
  else if c = Char.ofNat 12 then "\\f"
  else if c = '\n' then "\\n"
  else if c = Char.ofNat 13 then "\\r"
  else if c = '\t' then "\\t"
  else if c = Char.ofNat 11 then "\\v"
  else if c.toNat < 32 ∨ c.toNat = 127 then
    "\\x" ++ String.mk [hexDigitChar (c.toNat / 16), hexDigitChar (c.toNat % 16)]
  else String.singleton c

/-- Go's `%q` formatting of a string: `strconv.Quote`. -/
def goQuote (s : String) : String :=
  "\"" ++ String.join (s.toList.map goQuoteChar) ++ "\""

/-- `strconv.ParseBool`: accepts exactly the twelve listed literals. -/
def goParseBool (s : String) : Option Bool :=
  if s = "1" ∨ s = "t" ∨ s = "T" ∨ s = "TRUE" ∨ s = "true" ∨ s = "True" then
    some true
  else if s = "0" ∨ s = "f" ∨ s = "F" ∨ s = "FALSE" ∨ s = "false" ∨ s = "False" then
    some false
  else none

/-- Value of a list of decimal digit characters. -/
def digitsVal (ds : List Char) : Nat :=
  ds.foldl (fun a c => a * 10 + (c.toNat - 48)) 0

/-- `strconv.ParseInt(s, 10, 64)`: optional single sign, then at least one
decimal digit (no underscores with an explicit base), failing outside the
signed 64-bit range. -/
def goParseInt (s : String) : Option Int :=
  match s.toList with
  | [] => none
  | c :: rest =>
    let p : Bool × List Char :=
      if c = '-' then (true, rest)
      else if c = '+' then (false, rest)
      else (false, c :: rest)
    let neg := p.1
    let ds := p.2
    if ds.isEmpty then none
    else if ds.all Char.isDigit then
      let v : Int := if neg then -(digitsVal ds : Int) else (digitsVal ds : Int)
      if v < -(2 ^ 63) ∨ 2 ^ 63 - 1 < v then none else some v
    else none

/-- `strconv.FormatBool`. -/
def goFormatBool (b : Bool) : String := if b then "true" else "false"

/-- Big-endian decimal digit characters of a natural number (`"0"` for
zero), as produced by Go's `formatBits` for base 10. -/
def natDecimalChars (m : Nat) : List Char :=
  if m = 0 then ['0']
  else ((Nat.digits 10 m).map (fun d => Char.ofNat (48 + d))).reverse

/-- `strconv.FormatInt(n, 10)`. -/
def goFormatInt (n : Int) : String :=
  if n < 0 then String.mk ('-' :: natDecimalChars n.natAbs)
  else String.mk (natDecimalChars n.natAbs)

/-! ### Go `strconv.ParseFloat` model

The result of a successful parse is abstracted to `GoFloat`: finite values
are exact rationals (IEEE rounding of in-range values is not modelled, and
underflow to zero keeps the exact tiny rational), infinities and NaN are
symbolic.  The success/failure behaviour mirrors Go exactly: the syntax is
Go's float-literal grammar (decimal and hexadecimal mantissas, underscore
rules, `inf`/`infinity`/`nan` specials), and a syntactically valid decimal
or hexadecimal number fails (Go's `ErrRange`) precisely when its exact
value rounds to infinity, i.e. when its magnitude is at least
`2^1024 - 2^970`. -/

/-- Abstraction of a Go `float64` parse result. -/
inductive GoFloat where
  | finite (q : ℚ)
  | inf (neg : Bool)
  | nan
deriving DecidableEq

/-- Is `c` a hexadecimal digit character? -/
def isHexDigitChar (c : Char) : Bool :=
  c.isDigit || (97 ≤ (lowerChar c).toNat && (lowerChar c).toNat ≤ 102)

/-- Numeric value of a hexadecimal digit character. -/
def hexCharVal (c : Char) : Nat :=
  if c.isDigit then c.toNat - 48 else (lowerChar c).toNat - 87

/-- Value of a list of hexadecimal digit characters. -/
def hexDigitsVal (ds : List Char) : Nat :=
  ds.foldl (fun a c => a * 16 + hexCharVal c) 0

/-- Go `strconv`'s `special`: `inf`/`infinity` with an optional sign and
`nan` without one, case-insensitively, consuming the whole input. -/
def parseFloatSpecial (cs : List Char) : Option GoFloat :=
  match cs.map lowerChar with
  | 'n' :: 'a' :: 'n' :: [] => some .nan
  | l =>
    let p : Bool × List Char :=
      match l with
      | '-' :: r => (true, r)
      | '+' :: r => (false, r)
      | r => (false, r)
    match p.2 with
    | 'i' :: 'n' :: 'f' :: [] => some (.inf p.1)
    | 'i' :: 'n' :: 'f' :: 'i' :: 'n' :: 'i' :: 't' :: 'y' :: [] => some (.inf p.1)
    | _ => none

/-- Go `strconv.underscoreOK` inner loop.  `saw` is `'^'` at the start,
`'0'` after a digit (or base prefix), `'_'` after an underscore and `'!'`
after anything else. -/
def underscoreOKAux (hex : Bool) (saw : Char) : List Char → Bool
  | [] => saw != '_'
  | c :: rest =>
    if c.isDigit || (hex && isHexDigitChar c) then underscoreOKAux hex '0' rest
    else if c = '_' then
      if saw = '0' then underscoreOKAux hex '_' rest else false
    else if saw = '_' then false
    else underscoreOKAux hex '!' rest

/-- Go `strconv.underscoreOK`: underscores may only separate successive
digits (or follow a base prefix). -/
def underscoreOK (cs : List Char) : Bool :=
  let cs1 :=
    match cs with
    | c :: r => if c = '-' ∨ c = '+' then r else cs
    | [] => cs
  match cs1 with
  | '0' :: x :: rest =>
    if lowerChar x = 'x' ∨ lowerChar x = 'b' ∨ lowerChar x = 'o' then
      underscoreOKAux (lowerChar x = 'x') '0' rest
    else underscoreOKAux false '^' cs1
  | _ => underscoreOKAux false '^' cs1

/-- Span of digit-or-underscore characters (hexadecimal digits too when
`hex` is set), mirroring Go `readFloat`'s mantissa/exponent scans. -/
def spanDigitsU (hex : Bool) (cs : List Char) : List Char × List Char :=
  cs.span (fun c => c.isDigit || c == '_' || (hex && isHexDigitChar c))

/-- Exponent part after the `e`/`p` marker: optional sign, then at least
one digit (underscores allowed), consuming the rest of the input.  Go caps
the accumulated exponent at 10000 while reading; the cap is mirrored. -/
def parseExpPart (cs : List Char) : Option Int :=
  let p : Int × List Char :=
    match cs with
    | '+' :: r => (1, r)
    | '-' :: r => (-1, r)
    | _ => (1, cs)
  let q := spanDigitsU false p.2
  let digits := q.1.filter Char.isDigit
  if digits.isEmpty then none
  else if q.2.isEmpty then
    some (p.1 * digits.foldl (fun a c => if a < 10000 then a * 10 + ((c.toNat : Int) - 48) else a) 0)
  else none

/-- Drop leading zero characters. -/
def trimLeadingZeros : List Char → List Char
  | '0' :: rest => trimLeadingZeros rest
  | l => l

/-- `mant * base ^ e` as an exact rational, computed with `Nat` powers and
`mkRat` (which reduce well in the kernel). -/
def scaleByPow (base : Nat) (mant : Nat) (e : Int) : ℚ :=
  if 0 ≤ e then ((mant * base ^ e.toNat : ℕ) : ℚ)
  else mkRat (mant : ℤ) (base ^ (-e).toNat)

/-- The smallest magnitude at which a decimal or hexadecimal literal
overflows `float64` (rounds to infinity): `2^1024 - 2^970`. -/
def float64OverflowBound : ℚ := ((2 ^ 1024 - 2 ^ 970 : ℕ) : ℚ)

/-- Decimal mantissa (with optional fraction) and optional `e` exponent,
after the sign.  Returns the exact value, `none` on a syntax error or on
`float64` overflow. -/
def goParseDec (neg : Bool) (cs : List Char) : Option ℚ :=
  let p1 := spanDigitsU false cs
  let ip := p1.1
  let p2 : List Char × List Char :=
    match p1.2 with
    | '.' :: rr => spanDigitsU false rr
    | _ => ([], p1.2)
  let sawDot : Bool := match p1.2 with | '.' :: _ => true | _ => false
  let fp := p2.1
  let r2 := if sawDot then p2.2 else p1.2
  let intDigits := ip.filter Char.isDigit
  let fracDigits := fp.filter Char.isDigit
  if intDigits.isEmpty ∧ fracDigits.isEmpty then none
  else
    let eRes : Option Int :=
      match r2 with
      | [] => some 0
      | e :: r3 => if lowerChar e = 'e' then parseExpPart r3 else none
    match eRes with
    | none => none
    | some e =>
      let allDs := intDigits ++ fracDigits
      let mant := digitsVal allDs
      if mant = 0 then some 0
      else
        let tenExp : Int := e - fracDigits.length
        let dp : Int := (trimLeadingZeros allDs).length + tenExp
        if 310 < dp then none
        else if dp < -330 then some 0
        else
          let q : ℚ := scaleByPow 10 mant tenExp
          if float64OverflowBound ≤ q then none
          else some (if neg then Rat.neg q else q)

/-- Hexadecimal mantissa (after the `0x` prefix) with mandatory binary
`p` exponent.  Returns the exact value, `none` on a syntax error or on
`float64` overflow. -/
def goParseHex (neg : Bool) (cs : List Char) : Option ℚ :=
  let p1 := spanDigitsU true cs
  let ip := p1.1
  let p2 : List Char × List Char :=
    match p1.2 with
    | '.' :: rr => spanDigitsU true rr
    | _ => ([], p1.2)
  let sawDot : Bool := match p1.2 with | '.' :: _ => true | _ => false
  let fp := p2.1
  let r2 := if sawDot then p2.2 else p1.2
  let intDigits := ip.filter isHexDigitChar
  let fracDigits := fp.filter isHexDigitChar
  if intDigits.isEmpty ∧ fracDigits.isEmpty then none
  else
    let eRes : Option Int :=
      match r2 with
      | e :: r3 => if lowerChar e = 'p' then parseExpPart r3 else none
      | [] => none
    match eRes with
    | none => none
    | some e =>
      let allDs := intDigits ++ fracDigits
      let mant := hexDigitsVal allDs
      if mant = 0 then some 0
      else
        let twoExp : Int := e - 4 * fracDigits.length
        let bits : Int := 4 * (trimLeadingZeros allDs).length + twoExp
        if 1030 < bits then none
        else if bits < -1080 then some 0
        else
          let q : ℚ := scaleByPow 2 mant twoExp
          if float64OverflowBound ≤ q then none
          else some (if neg then Rat.neg q else q)

/-- `strconv.ParseFloat(s, 64)`.  `none` exactly when Go reports an error
(syntax error, underscore-rule violation, or overflow to infinity). -/
def goParseFloat (s : String) : Option GoFloat :=
  let cs := s.toList
  match parseFloatSpecial cs with
  | some f => some f
  | none =>
    if underscoreOK cs then
      let p : Bool × List Char :=
        match cs with
        | '+' :: r => (false, r)
        | '-' :: r => (true, r)
        | _ => (false, cs)
      let numRes :=
        match p.2 with
        | '0' :: x :: rest =>
          if lowerChar x = 'x' then goParseHex p.1 rest else goParseDec p.1 p.2
        | _ => goParseDec p.1 p.2
      match numRes with
      | some q => some (.finite q)
      | none => none
    else none

/-! ### `encoding/json` model

`json.Unmarshal(data, &obj)` with `obj : map[string]interface{}` first
validates `data` as a single JSON value surrounded by optional whitespace,
then requires the top-level value to be an object (or `null`, which leaves
the nil map untouched).  The grammar below is RFC-8259 JSON as accepted by
Go's scanner; object fields are decoded in input order with a later
duplicate key overwriting the earlier one, as Go's map assignment does. -/

/-- JSON whitespace (Go `isSpace`). -/
def isJsonWs (c : Char) : Bool := c == ' ' || c == '\t' || c == '\n' || c == Char.ofNat 13

/-- Drop leading JSON whitespace. -/
def skipWs : List Char → List Char
  | c :: cs => if isJsonWs c then skipWs cs else c :: cs
  | [] => []

/-- The `\x7b` character. -/
def lbrace : Char := Char.ofNat 123

/-- The `\x7d` character. -/
def rbrace : Char := Char.ofNat 125

/-- Hexadecimal digit value of a character, if any. -/
def hexVal (c : Char) : Option Nat :=
  if c.isDigit then some (c.toNat - 48)
  else if 97 ≤ c.toNat ∧ c.toNat ≤ 102 then some (c.toNat - 87)
  else if 65 ≤ c.toNat ∧ c.toNat ≤ 70 then some (c.toNat - 55)
  else none

/-- Map-style insertion into an association list: overwrite the value at an
existing key, else append (Go `m[k] = v`). -/
def insertField (fields : List (String × Json)) (k : String) (v : Json) :
    List (String × Json) :=
  match fields with
  | [] => [(k, v)]
  | (k', v') :: rest =>
    if k' = k then (k, v) :: rest else (k', v') :: insertField rest k v

/-- Parse a JSON number (after a leading `-` or digit has been sighted):
`-? (0 | [1-9][0-9]*) (. [0-9]+)? ([eE][+-]?[0-9]+)?`, valued as an exact
rational. -/
def parseNumber (cs : List Char) : Option (ℚ × List Char) :=
  let p : Bool × List Char :=
    match cs with
    | '-' :: r => (true, r)
    | _ => (false, cs)
  let neg := p.1
  match p.2 with
  | [] => none
  | c :: rest =>
    if c.isDigit then
      let ipr : List Char × List Char :=
        if c = '0' then ([c], rest) else (c :: rest).span Char.isDigit
      let fr : Option (List Char × List Char) :=
        match ipr.2 with
        | '.' :: rr =>
          let q := rr.span Char.isDigit
          if q.1.isEmpty then none else some q
        | _ => some ([], ipr.2)
      match fr with
      | none => none
      | some (fp, r2) =>
        let er : Option (Int × List Char) :=
          match r2 with
          | e :: r3 =>
            if e = 'e' ∨ e = 'E' then
              let sp : Int × List Char :=
                match r3 with
                | '+' :: rr => (1, rr)
                | '-' :: rr => (-1, rr)
                | _ => (1, r3)
              let q := sp.2.span Char.isDigit
              if q.1.isEmpty then none else some (sp.1 * (digitsVal q.1 : Int), q.2)
            else some (0, r2)
          | [] => some (0, [])
        match er with
        | none => none
        | some (e, r5) =>
          let q : ℚ := scaleByPow 10 (digitsVal (ipr.1 ++ fp)) (e - (fp.length : Int))
          some ((if neg then Rat.neg q else q), r5)
    else none

/-- Parse the body of a JSON string (the opening quote already consumed),
accumulating decoded characters in reverse.  Mirrors Go: raw control
characters are rejected, the eight simple escapes and `\uXXXX` are decoded,
and unpaired surrogates become U+FFFD. -/
def parseStringBody : Nat → List Char → List Char → Option (String × List Char)
  | 0, _, _ => none
  | fuel + 1, acc, cs =>
    match cs with
    | [] => none
    | c :: rest =>
      if c = '"' then some (String.mk acc.reverse, rest)
      else if c = '\\' then
        match rest with
        | [] => none
        | e :: r2 =>
          if e = '"' then parseStringBody fuel ('"' :: acc) r2
          else if e = '\\' then parseStringBody fuel ('\\' :: acc) r2
          else if e = '/' then parseStringBody fuel ('/' :: acc) r2
          else if e = 'b' then parseStringBody fuel (Char.ofNat 8 :: acc) r2
          else if e = 'f' then parseStringBody fuel (Char.ofNat 12 :: acc) r2
          else if e = 'n' then parseStringBody fuel ('\n' :: acc) r2
          else if e = 'r' then parseStringBody fuel (Char.ofNat 13 :: acc) r2
          else if e = 't' then parseStringBody fuel ('\t' :: acc) r2
          else if e = 'u' then
            match r2 with
            | h1 :: h2 :: h3 :: h4 :: r3 =>
              match hexVal h1, hexVal h2, hexVal h3, hexVal h4 with
              | some a, some b, some c1, some d =>
                let n := ((a * 16 + b) * 16 + c1) * 16 + d
                if 55296 ≤ n ∧ n ≤ 56319 then
                  match r3 with
                  | '\\' :: 'u' :: g1 :: g2 :: g3 :: g4 :: r4 =>
                    match hexVal g1, hexVal g2, hexVal g3, hexVal g4 with
                    | some a', some b', some c', some d' =>
                      let m := ((a' * 16 + b') * 16 + c') * 16 + d'
                      if 56320 ≤ m ∧ m ≤ 57343 then
                        let cp := 65536 + (n - 55296) * 1024 + (m - 56320)
                        parseStringBody fuel (Char.ofNat cp :: acc) r4
                      else parseStringBody fuel (Char.ofNat 65533 :: acc) r3
                    | _, _, _, _ => parseStringBody fuel (Char.ofNat 65533 :: acc) r3
                  | _ => parseStringBody fuel (Char.ofNat 65533 :: acc) r3
                else if 56320 ≤ n ∧ n ≤ 57343 then
                  parseStringBody fuel (Char.ofNat 65533 :: acc) r3
                else parseStringBody fuel (Char.ofNat n :: acc) r3
              | _, _, _, _ => none
            | _ => none
          else none
      else if c.toNat < 32 then none
      else parseStringBody fuel (c :: acc) rest

mutual

/-- Parse one JSON value, whitespace-tolerant on the left. -/
def parseValue : Nat → List Char → Option (Json × List Char)
  | 0, _ => none
  | fuel + 1, cs =>
    match skipWs cs with
    | [] => none
    | 'n' :: 'u' :: 'l' :: 'l' :: rest => some (.null, rest)
    | 't' :: 'r' :: 'u' :: 'e' :: rest => some (.bool true, rest)
    | 'f' :: 'a' :: 'l' :: 's' :: 'e' :: rest => some (.bool false, rest)
    | '"' :: rest =>
      match parseStringBody (rest.length + 1) [] rest with
      | some (s, r) => some (.str s, r)
      | none => none
    | '[' :: rest =>
      match skipWs rest with
      | ']' :: r => some (.arr [], r)
      | _ => parseArrayElems fuel rest []
    | c :: rest =>
      if c = lbrace then
        match skipWs rest with
        | d :: r2 =>
          if d = rbrace then some (.obj [], r2) else parseObjFields fuel rest []
        | [] => none
      else if c = '-' ∨ c.isDigit then
        match parseNumber (c :: rest) with
        | some (q, r) => some (.num q, r)
        | none => none
      else none

/-- Parse the remaining comma-separated elements of a non-empty array. -/
def parseArrayElems : Nat → List Char → List Json → Option (Json × List Char)
  | 0, _, _ => none
  | fuel + 1, cs, acc =>
    match parseValue fuel cs with
    | none => none
    | some (j, rest) =>
      match skipWs rest with
      | ',' :: r => parseArrayElems fuel r (acc ++ [j])
      | ']' :: r => some (.arr (acc ++ [j]), r)
      | _ => none

/-- Parse the remaining fields of a non-empty object. -/
def parseObjFields : Nat → List Char → List (String × Json) →
    Option (Json × List Char)
  | 0, _, _ => none
  | fuel + 1, cs, acc =>
    match skipWs cs with
    | '"' :: r1 =>
      match parseStringBody (r1.length + 1) [] r1 with
      | none => none
      | some (k, r2) =>
        match skipWs r2 with
        | ':' :: r3 =>
          match parseValue fuel r3 with
          | none => none
          | some (v, r4) =>
            match skipWs r4 with
            | ',' :: r5 => parseObjFields fuel r5 (insertField acc k v)
            | d :: r5 =>
              if d = rbrace then some (.obj (insertField acc k v), r5) else none
            | [] => none
        | _ => none
    | _ => none

end

/-- Parse a whole string as a single JSON value (Go's `checkValid` plus
decode): optional whitespace, one value, optional whitespace, end. -/
def parseTopLevel (s : String) : Option Json :=
  let cs := s.toList
  match parseValue (2 * cs.length + 2) cs with
  | some (j, rest) => if (skipWs rest).isEmpty then some j else none
  | none => none

/-- `json.Unmarshal([]byte(s), &obj)` for `obj : map[string]interface{}`
starting nil: `none` when Go reports an error, `some none` when the
document is `null` (the map stays nil), `some (some fields)` for an
object. -/
def goUnmarshalMap (s : String) : Option (Option (List (String × Json))) :=
  match parseTopLevel s with
  | some (.obj fields) => some (some fields)
  | some .null => some none
  | _ => none

/-! ### The provider (`provider.go`)

The PostHog client collaborator is modelled as a function from the lookup
payload to either a transport error message or a reply value.  Each entry
point returns its resolution outcome paired with the number of client
invocations it performed. -/

/-- The backend collaborator: `posthog.Client.GetFeatureFlag`. -/
def PosthogClient := FeatureFlagPayload → Except String GoVal

/-- Classification of one client reply by `getFeatureFlag`: a transport
error is passed through; a boolean reply is the not-found sentinel
(regardless of its value); anything else is a found value. -/
inductive LookupResult where
  | transportErr (msg : String)
  | notFound
  | found (v : GoVal)

/-- `(*Provider).getFeatureFlag`. -/
def getFeatureFlag (client : PosthogClient) (payload : FeatureFlagPayload) :
    LookupResult :=
  match client payload with
  | .error e => .transportErr e
  | .ok (.bool _) => .notFound
  | .ok v => .found v

/-- The `groups` lookup of `translateFeatureFlagPayload`: absent means the
zero `posthog.Groups`; present values must have dynamic type
`posthog.Groups`. -/
def lookupGroups (evalCtx : FlattenedContext) : Except GoErr PosthogGroups :=
  match evalCtx.lookup GroupsContextKey with
  | none => .ok []
  | some (.groups g) => .ok g
  | some _ => .error .invalidGroups

/-- The `properties` lookup of `translateFeatureFlagPayload`: absent means
the zero `PostHogProperties`; present values must have dynamic type
`PostHogProperties`. -/
def lookupProperties (evalCtx : FlattenedContext) : Except GoErr PostHogProperties :=
  match evalCtx.lookup PropertiesContextKey with
  | none => .ok ⟨[], []⟩
  | some (.props p) => .ok p
  | some _ => .error .invalidProperties

/-- `translateFeatureFlagPayload`.  The required targeting key is looked up
first, then groups, then properties; the payload is built with the
unchecked assertion `distinctID.(string)`, which panics (`fault`) on a
non-string targeting value. -/
def translateFeatureFlagPayload (evalCtx : FlattenedContext) (key : String) :
    TranslateResult :=
  match evalCtx.lookup DistinctIDContextKey with
  | none => .err .missingTargetKey
  | some distinctID =>
    match lookupGroups evalCtx with
    | .error e => .err e
    | .ok postHogGroups =>
      match lookupProperties evalCtx with
      | .error e => .err e
      | .ok postHogCtx =>
        match distinctID with
        | .str s =>
          .ok ⟨key, s, postHogGroups, postHogCtx.PersonProperties,
               postHogCtx.GroupProperties⟩
        | _ => .fault

/-- `parseFlagValue[bool]`: the reply must be a string, parsed with
`strconv.ParseBool`. -/
def parseFlagValueBool (v : GoVal) : Except ResolutionError Bool :=
  match v with
  | .str s =>
    match goParseBool s with
    | some b => .ok b
    | none => .error ⟨.typeMismatch, goQuote s ++ " is not a boolean"⟩
  | w => .error ⟨.typeMismatch, goDisplay w ++ " is not a string"⟩

/-- `parseFlagValue[int64]`: the reply must be a string, parsed with
`strconv.ParseInt(s, 10, 64)`. -/
def parseFlagValueInt (v : GoVal) : Except ResolutionError Int :=
  match v with
  | .str s =>
    match goParseInt s with
    | some i => .ok i
    | none => .error ⟨.typeMismatch, goQuote s ++ " is not a int"⟩
  | w => .error ⟨.typeMismatch, goDisplay w ++ " is not a string"⟩

/-- `parseFlagValue[float64]`: the reply must be a string, parsed with
`strconv.ParseFloat(s, 64)`. -/
def parseFlagValueFloat (v : GoVal) : Except ResolutionError GoFloat :=
  match v with
  | .str s =>
    match goParseFloat s with
    | some f => .ok f
    | none => .error ⟨.typeMismatch, goQuote s ++ " is not a float"⟩
  | w => .error ⟨.typeMismatch, goDisplay w ++ " is not a string"⟩

/-- `parseFlagValue[string]`: the reply must be a string, passed through
unchanged. -/
def parseFlagValueString (v : GoVal) : Except ResolutionError String :=
  match v with
  | .str s => .ok s
  | w => .error ⟨.typeMismatch, goDisplay w ++ " is not a string"⟩

/-- `(*Provider).BooleanEvaluation`, paired with the number of client
calls.  This is the only entry point that maps the missing-targeting-key
sentinel to a `TargetingKeyMissing` resolution error. -/
def BooleanEvaluation (client : PosthogClient) (flag : String)
    (defaultValue : Bool) (evalCtx : FlattenedContext) :
    EvalOutcome Bool × Nat :=
  match translateFeatureFlagPayload evalCtx flag with
  | .fault => (.fault, 0)
  | .err e =>
    if e = .missingTargetKey then
      (.ok ⟨defaultValue, .errorReason, some ⟨.targetingKeyMissing, e.message⟩⟩, 0)
    else
      (.ok ⟨defaultValue, .errorReason, some ⟨.general, e.message⟩⟩, 0)
  | .ok payload =>
    match getFeatureFlag client payload with
    | .transportErr msg =>
      (.ok ⟨defaultValue, .errorReason, some ⟨.general, msg⟩⟩, 1)
    | .notFound =>
      (.ok ⟨defaultValue, .defaultReason,
            some ⟨.flagNotFound, goQuote flag ++ " not found"⟩⟩, 1)
    | .found v =>
      match parseFlagValueBool v with
      | .error re => (.ok ⟨defaultValue, .errorReason, some re⟩, 1)
      | .ok b => (.ok ⟨b, .targetingMatchReason, none⟩, 1)

/-- `(*Provider).FloatEvaluation`, paired with the number of client
calls. -/
def FloatEvaluation (client : PosthogClient) (flag : String)
    (defaultValue : GoFloat) (evalCtx : FlattenedContext) :
    EvalOutcome GoFloat × Nat :=
  match translateFeatureFlagPayload evalCtx flag with
  | .fault => (.fault, 0)
  | .err e =>
    (.ok ⟨defaultValue, .errorReason, some ⟨.general, e.message⟩⟩, 0)
  | .ok payload =>
    match getFeatureFlag client payload with
    | .transportErr msg =>
      (.ok ⟨defaultValue, .errorReason, some ⟨.general, msg⟩⟩, 1)
    | .notFound =>
      (.ok ⟨defaultValue, .defaultReason,
            some ⟨.flagNotFound, goQuote flag ++ " not found"⟩⟩, 1)
    | .found v =>
      match parseFlagValueFloat v with
      | .error re => (.ok ⟨defaultValue, .errorReason, some re⟩, 1)
      | .ok f => (.ok ⟨f, .targetingMatchReason, none⟩, 1)

/-- `(*Provider).IntEvaluation`, paired with the number of client calls. -/
def IntEvaluation (client : PosthogClient) (flag : String)
    (defaultValue : Int) (evalCtx : FlattenedContext) :
    EvalOutcome Int × Nat :=
  match translateFeatureFlagPayload evalCtx flag with
  | .fault => (.fault, 0)
  | .err e =>
    (.ok ⟨defaultValue, .errorReason, some ⟨.general, e.message⟩⟩, 0)
  | .ok payload =>
    match getFeatureFlag client payload with
    | .transportErr msg =>
      (.ok ⟨defaultValue, .errorReason, some ⟨.general, msg⟩⟩, 1)
    | .notFound =>
      (.ok ⟨defaultValue, .defaultReason,
            some ⟨.flagNotFound, goQuote flag ++ " not found"⟩⟩, 1)
    | .found v =>
      match parseFlagValueInt v with
      | .error re => (.ok ⟨defaultValue, .errorReason, some re⟩, 1)
      | .ok i => (.ok ⟨i, .targetingMatchReason, none⟩, 1)

/-- `(*Provider).StringEvaluation`, paired with the number of client
calls. -/
def StringEvaluation (client : PosthogClient) (flag : String)
    (defaultValue : String) (evalCtx : FlattenedContext) :
    EvalOutcome String × Nat :=
  match translateFeatureFlagPayload evalCtx flag with
  | .fault => (.fault, 0)
  | .err e =>
    (.ok ⟨defaultValue, .errorReason, some ⟨.general, e.message⟩⟩, 0)
  | .ok payload =>
    match getFeatureFlag client payload with
    | .transportErr msg =>
      (.ok ⟨defaultValue, .errorReason, some ⟨.general, msg⟩⟩, 1)
    | .notFound =>
      (.ok ⟨defaultValue, .defaultReason,
            some ⟨.flagNotFound, goQuote flag ++ " not found"⟩⟩, 1)
    | .found v =>
      match parseFlagValueString v with
      | .error re => (.ok ⟨defaultValue, .errorReason, some re⟩, 1)
      | .ok s => (.ok ⟨s, .targetingMatchReason, none⟩, 1)

/-- The `interface{}` values flowing through `ObjectEvaluation`: either an
arbitrary caller-supplied default, or the decoded `map[string]interface{}`
(`none` being the nil map left by unmarshalling `null`). -/
inductive OVal where
  | json (j : Json)
  | map (m : Option (List (String × Json)))

/-- `(*Provider).ObjectEvaluation`, paired with the number of client calls.
Unlike the scalar entry points it decodes the reply with `json.Unmarshal`
after the unchecked assertion `res.(string)`, which panics (`fault`) on a
non-string found value. -/
def ObjectEvaluation (client : PosthogClient) (flag : String)
    (defaultValue : OVal) (evalCtx : FlattenedContext) :
    EvalOutcome OVal × Nat :=
  match translateFeatureFlagPayload evalCtx flag with
  | .fault => (.fault, 0)
  | .err e =>
    (.ok ⟨defaultValue, .errorReason, some ⟨.general, e.message⟩⟩, 0)
  | .ok payload =>
    match getFeatureFlag client payload with
    | .transportErr msg =>
      (.ok ⟨defaultValue, .errorReason, some ⟨.general, msg⟩⟩, 1)
    | .notFound =>
      (.ok ⟨defaultValue, .defaultReason,
            some ⟨.flagNotFound, goQuote flag ++ " not found"⟩⟩, 1)
    | .found (.str s) =>
      match goUnmarshalMap s with
      | none =>
        (.ok ⟨defaultValue, .errorReason,
              some ⟨.typeMismatch, "invalid JSON as flag value"⟩⟩, 1)
      | some m => (.ok ⟨.map m, .targetingMatchReason, none⟩, 1)
    | .found _ => (.fault, 1)

/-! ### Fixtures for concrete evaluations -/

/-- A fixture evaluation context holding only the targeting key. -/
def ctxW : FlattenedContext := [(DistinctIDContextKey, CtxVal.str "12345")]

/-- The payload that `ctxW` translates to. -/
def payloadW (flag : String) : FeatureFlagPayload := ⟨flag, "12345", [], [], []⟩

/-- A client stub answering every lookup with the same reply. -/
def constClient (r : Except String GoVal) : PosthogClient := fun _ => r

/-! ### Round-trip sanity lemmas for the scalar coercions

These validate the `strconv` models: parsing the canonical formatting of a
boolean or of an in-range signed 64-bit integer reproduces the value.  (The
analogous `float64` round trip depends on IEEE-754 shortest-representation
formatting and is outside this embedding.) -/

theorem goParseBool_goFormatBool (b : Bool) :
    goParseBool (goFormatBool b) = some b := by
  cases b <;> decide

theorem digit_char_toNat (d : Nat) (hd : d < 10) :
    (Char.ofNat (48 + d)).toNat = 48 + d := by
  interval_cases d <;> decide

theorem digit_char_isDigit (d : Nat) (hd : d < 10) :
    (Char.ofNat (48 + d)).isDigit = true := by
  interval_cases d <;> decide

theorem digitsVal_append_digit (xs : List Char) (c : Char) :
    digitsVal (xs ++ [c]) = digitsVal xs * 10 + (c.toNat - 48) := by
  simp [digitsVal, List.foldl_append]

theorem digitsVal_rev_map_digits (ds : List Nat) (h : ∀ d ∈ ds, d < 10) :
    digitsVal ((ds.map (fun d => Char.ofNat (48 + d))).reverse) =
      Nat.ofDigits 10 ds := by
  induction ds with
  | nil => simp [digitsVal]
  | cons d ds ih =>
    simp only [List.map_cons, List.reverse_cons, digitsVal_append_digit]
    rw [ih (fun x hx => h x (List.mem_cons_of_mem _ hx)),
      digit_char_toNat d (h d (List.mem_cons_self _ _)), Nat.ofDigits_cons]
    omega

theorem digitsVal_natDecimalChars (m : Nat) :
    digitsVal (natDecimalChars m) = m := by
  by_cases hm : m = 0
  · subst hm; decide
  · rw [natDecimalChars, if_neg hm,
      digitsVal_rev_map_digits _ (fun d hd => Nat.digits_lt_base (by norm_num) hd),
      Nat.ofDigits_digits]

theorem natDecimalChars_all_digits (m : Nat) :
    (natDecimalChars m).all Char.isDigit = true := by
  by_cases hm : m = 0
  · subst hm; decide
  · rw [natDecimalChars, if_neg hm, List.all_eq_true]
    intro c hc
    rw [List.mem_reverse, List.mem_map] at hc
    obtain ⟨d, hd, rfl⟩ := hc
    exact digit_char_isDigit d (Nat.digits_lt_base (by norm_num) hd)

theorem natDecimalChars_ne_nil (m : Nat) : natDecimalChars m ≠ [] := by
  by_cases hm : m = 0
  · subst hm; decide
  · rw [natDecimalChars, if_neg hm]
    simp [Nat.digits_ne_nil_iff_ne_zero, hm]

theorem goParseInt_natDecimalChars (m : Nat) (hm : m ≤ 2 ^ 63 - 1) :
    goParseInt (String.mk (natDecimalChars m)) = some (m : Int) := by
  obtain ⟨c, rest, hl⟩ : ∃ c rest, natDecimalChars m = c :: rest := by
    rcases hcons : natDecimalChars m with _ | ⟨c, rest⟩
    · exact absurd hcons (natDecimalChars_ne_nil m)
    · exact ⟨c, rest, rfl⟩
  have hcd : c.isDigit = true := by
    have := natDecimalChars_all_digits m
    rw [hl, List.all_cons] at this
    exact (Bool.and_eq_true_iff.mp this).1
  have hc1 : ¬(c = '-') := fun h => by subst h; simp [Char.isDigit] at hcd
  have hc2 : ¬(c = '+') := fun h => by subst h; simp [Char.isDigit] at hcd
  have htl : (String.mk (natDecimalChars m)).toList = c :: rest := by
    simpa [String.toList] using hl
  have hval : digitsVal (c :: rest) = m := by
    rw [← hl, digitsVal_natDecimalChars]
  have hall : ∀ x ∈ c :: rest, x.isDigit = true := by
    have := natDecimalChars_all_digits m
    rw [hl, List.all_eq_true] at this
    exact this
  simp [goParseInt, hl, hc1, hc2, hall, hval]
  exact ⟨fun x hx => hall x (List.mem_cons_of_mem _ hx), by omega, by omega⟩

theorem goParseInt_goFormatInt (n : Int) (h1 : -(2 ^ 63) ≤ n)
    (h2 : n ≤ 2 ^ 63 - 1) : goParseInt (goFormatInt n) = some n := by
  by_cases hn : n < 0
  · rw [goFormatInt, if_pos hn]
    have hall : ∀ x ∈ natDecimalChars n.natAbs, x.isDigit = true := by
      have := natDecimalChars_all_digits n.natAbs
      rw [List.all_eq_true] at this
      exact this
    simp [goParseInt, natDecimalChars_ne_nil, hall, digitsVal_natDecimalChars]
    rw [abs_of_neg hn]
    exact ⟨hall, ⟨by omega, by omega⟩, by omega⟩
  · have h0 : 0 ≤ n := le_of_not_lt hn
    have habs : ((n.natAbs : Nat) : Int) = n := Int.natAbs_of_nonneg h0
    have hm : n.natAbs ≤ 2 ^ 63 - 1 := by
      have : ((n.natAbs : Nat) : Int) ≤ ((2 ^ 63 - 1 : Nat) : Int) := by
        rw [habs]; exact_mod_cast le_trans h2 (by norm_num)
      exact_mod_cast this
    rw [goFormatInt, if_neg hn, goParseInt_natDecimalChars n.natAbs hm, habs]

/-! ### Claims -/

/-- C1: for every evaluation entry point, whenever the context translates
and the backend client returns a boolean reply with no error — of either
value — the lookup is classified as not found and the entry point returns
the caller's default, reason `Default`, and a `FlagNotFound` error whose
message is the quoted flag name followed by `not found`. -/
theorem boolean_reply_is_not_found (client : PosthogClient) (flag : String)
    (dvB : Bool) (dvI : Int) (dvF : GoFloat) (dvS : String) (dvO : OVal)
    (evalCtx : FlattenedContext) (p : FeatureFlagPayload) (b : Bool)
    (htr : translateFeatureFlagPayload evalCtx flag = .ok p)
    (hcl : client p = .ok (.bool b)) :
    (BooleanEvaluation client flag dvB evalCtx).1 =
      .ok ⟨dvB, .defaultReason, some ⟨.flagNotFound, goQuote flag ++ " not found"⟩⟩ ∧
    (IntEvaluation client flag dvI evalCtx).1 =
      .ok ⟨dvI, .defaultReason, some ⟨.flagNotFound, goQuote flag ++ " not found"⟩⟩ ∧
    (FloatEvaluation client flag dvF evalCtx).1 =
      .ok ⟨dvF, .defaultReason, some ⟨.flagNotFound, goQuote flag ++ " not found"⟩⟩ ∧
    (StringEvaluation client flag dvS evalCtx).1 =
      .ok ⟨dvS, .defaultReason, some ⟨.flagNotFound, goQuote flag ++ " not found"⟩⟩ ∧
    (ObjectEvaluation client flag dvO evalCtx).1 =
      .ok ⟨dvO, .defaultReason, some ⟨.flagNotFound, goQuote flag ++ " not found"⟩⟩ := by
  have hg : getFeatureFlag client p = .notFound := by
    simp [getFeatureFlag, hcl]
  refine ⟨?_, ?_, ?_, ?_, ?_⟩ <;>
    simp [BooleanEvaluation, IntEvaluation, FloatEvaluation, StringEvaluation,
      ObjectEvaluation, htr, hg]

/-- Witness for C1 at a concrete context, flag and client. -/
theorem boolean_reply_is_not_found_witness :
    translateFeatureFlagPayload ctxW "my-flag" = .ok (payloadW "my-flag") ∧
    (BooleanEvaluation (constClient (.ok (.bool false))) "my-flag" true ctxW).1 =
      .ok ⟨true, .defaultReason,
        some ⟨.flagNotFound, goQuote "my-flag" ++ " not found"⟩⟩ :=
  ⟨rfl,
    (boolean_reply_is_not_found (constClient (.ok (.bool false))) "my-flag"
      true 0 .nan "" (.json .null) ctxW (payloadW "my-flag") false rfl rfl).1⟩

/-- C2: for every evaluation context lacking the targeting key,
`BooleanEvaluation` returns the default with a `TargetingKeyMissing` error
and `Error` reason, while the other four entry points return the default
with a `General` error and `Error` reason. -/
theorem missing_targeting_key_errors (client : PosthogClient) (flag : String)
    (dvB : Bool) (dvI : Int) (dvF : GoFloat) (dvS : String) (dvO : OVal)
    (evalCtx : FlattenedContext)
    (h : evalCtx.lookup DistinctIDContextKey = none) :
    (BooleanEvaluation client flag dvB evalCtx).1 =
      .ok ⟨dvB, .errorReason,
        some ⟨.targetingKeyMissing, GoErr.missingTargetKey.message⟩⟩ ∧
    (IntEvaluation client flag dvI evalCtx).1 =
      .ok ⟨dvI, .errorReason, some ⟨.general, GoErr.missingTargetKey.message⟩⟩ ∧
    (FloatEvaluation client flag dvF evalCtx).1 =
      .ok ⟨dvF, .errorReason, some ⟨.general, GoErr.missingTargetKey.message⟩⟩ ∧
    (StringEvaluation client flag dvS evalCtx).1 =
      .ok ⟨dvS, .errorReason, some ⟨.general, GoErr.missingTargetKey.message⟩⟩ ∧
    (ObjectEvaluation client flag dvO evalCtx).1 =
      .ok ⟨dvO, .errorReason, some ⟨.general, GoErr.missingTargetKey.message⟩⟩ := by
  have htr : translateFeatureFlagPayload evalCtx flag = .err .missingTargetKey := by
    simp [translateFeatureFlagPayload, h]
  refine ⟨?_, ?_, ?_, ?_, ?_⟩ <;>
    simp [BooleanEvaluation, IntEvaluation, FloatEvaluation, StringEvaluation,
      ObjectEvaluation, htr]

/-- Witness for C2 at the empty evaluation context. -/
theorem missing_targeting_key_errors_witness :
    ([] : FlattenedContext).lookup DistinctIDContextKey = none ∧
    (BooleanEvaluation (constClient (.ok (.str "true"))) "f" false []).1 =
      .ok ⟨false, .errorReason,
        some ⟨.targetingKeyMissing, GoErr.missingTargetKey.message⟩⟩ ∧
    (FloatEvaluation (constClient (.ok (.str "true"))) "f" .nan []).1 =
      .ok ⟨.nan, .errorReason, some ⟨.general, GoErr.missingTargetKey.message⟩⟩ :=
  have h := missing_targeting_key_errors (constClient (.ok (.str "true"))) "f"
    false 0 .nan "" (.json .null) [] rfl
  ⟨rfl, h.1, h.2.2.1⟩

/-- C8: for every evaluation whose context translates, a transport error
from the client makes every entry point return the caller's default with a
`General` error carrying the error's message and `Error` reason, after
exactly one client invocation. -/
theorem transport_error_general (client : PosthogClient) (flag : String)
    (dvB : Bool) (dvI : Int) (dvF : GoFloat) (dvS : String) (dvO : OVal)
    (evalCtx : FlattenedContext) (p : FeatureFlagPayload) (e : String)
    (htr : translateFeatureFlagPayload evalCtx flag = .ok p)
    (hcl : client p = .error e) :
    BooleanEvaluation client flag dvB evalCtx =
      (.ok ⟨dvB, .errorReason, some ⟨.general, e⟩⟩, 1) ∧
    IntEvaluation client flag dvI evalCtx =
      (.ok ⟨dvI, .errorReason, some ⟨.general, e⟩⟩, 1) ∧
    FloatEvaluation client flag dvF evalCtx =
      (.ok ⟨dvF, .errorReason, some ⟨.general, e⟩⟩, 1) ∧
    StringEvaluation client flag dvS evalCtx =
      (.ok ⟨dvS, .errorReason, some ⟨.general, e⟩⟩, 1) ∧
    ObjectEvaluation client flag dvO evalCtx =
      (.ok ⟨dvO, .errorReason, some ⟨.general, e⟩⟩, 1) := by
  have hg : getFeatureFlag client p = .transportErr e := by
    simp [getFeatureFlag, hcl]
  refine ⟨?_, ?_, ?_, ?_, ?_⟩ <;>
    simp [BooleanEvaluation, IntEvaluation, FloatEvaluation, StringEvaluation,
      ObjectEvaluation, htr, hg]

/-- Witness for C8 at a concrete failing client. -/
theorem transport_error_general_witness :
    translateFeatureFlagPayload ctxW "f" = .ok (payloadW "f") ∧
    StringEvaluation (constClient (.error "connection refused")) "f" "dv" ctxW =
      (.ok ⟨"dv", .errorReason, some ⟨.general, "connection refused"⟩⟩, 1) :=
  ⟨rfl,
    (transport_error_general (constClient (.error "connection refused")) "f"
      false 0 .nan "dv" (.json .null) ctxW (payloadW "f")
      "connection refused" rfl rfl).2.2.2.1⟩

/-- C4: for every evaluation where the context translates and the client
returns a found string value that parses (or decodes) as the expected
type, the entry point returns the parsed value — the raw string unchanged
for the string entry point — with reason `TargetingMatch` and no
resolution error. -/
theorem well_formed_value_targeting_match (client : PosthogClient)
    (flag : String) (dvB : Bool) (dvI : Int) (dvF : GoFloat) (dvS : String)
    (dvO : OVal) (evalCtx : FlattenedContext) (p : FeatureFlagPayload)
    (s : String)
    (htr : translateFeatureFlagPayload evalCtx flag = .ok p)
    (hcl : client p = .ok (.str s)) :
    (∀ b, goParseBool s = some b →
      (BooleanEvaluation client flag dvB evalCtx).1 =
        .ok ⟨b, .targetingMatchReason, none⟩) ∧
    (∀ i, goParseInt s = some i →
      (IntEvaluation client flag dvI evalCtx).1 =
        .ok ⟨i, .targetingMatchReason, none⟩) ∧
    (∀ f, goParseFloat s = some f →
      (FloatEvaluation client flag dvF evalCtx).1 =
        .ok ⟨f, .targetingMatchReason, none⟩) ∧
    (StringEvaluation client flag dvS evalCtx).1 =
      .ok ⟨s, .targetingMatchReason, none⟩ ∧
    (∀ m, goUnmarshalMap s = some m →
      (ObjectEvaluation client flag dvO evalCtx).1 =
        .ok ⟨.map m, .targetingMatchReason, none⟩) := by
  have hg : getFeatureFlag client p = .found (.str s) := by
    simp [getFeatureFlag, hcl]
  refine ⟨fun b hb => ?_, fun i hi => ?_, fun f hf => ?_, ?_, fun m hm => ?_⟩
  · simp [BooleanEvaluation, htr, hg, parseFlagValueBool, hb]
  · simp [IntEvaluation, htr, hg, parseFlagValueInt, hi]
  · simp [FloatEvaluation, htr, hg, parseFlagValueFloat, hf]
  · simp [StringEvaluation, htr, hg, parseFlagValueString]
  · simp [ObjectEvaluation, htr, hg, hm]

/-- Witness for C4 at the found value `"1"`, which parses as all three
scalar types. -/
theorem well_formed_value_targeting_match_witness :
    goParseBool "1" = some true ∧
    (BooleanEvaluation (constClient (.ok (.str "1"))) "f" false ctxW).1 =
      .ok ⟨true, .targetingMatchReason, none⟩ ∧
    (IntEvaluation (constClient (.ok (.str "1"))) "f" 0 ctxW).1 =
      .ok ⟨1, .targetingMatchReason, none⟩ ∧
    (FloatEvaluation (constClient (.ok (.str "1"))) "f" .nan ctxW).1 =
      .ok ⟨.finite 1, .targetingMatchReason, none⟩ ∧
    (StringEvaluation (constClient (.ok (.str "1"))) "f" "dv" ctxW).1 =
      .ok ⟨"1", .targetingMatchReason, none⟩ :=
  have h := well_formed_value_targeting_match (constClient (.ok (.str "1")))
    "f" false 0 .nan "dv" (.json .null) ctxW (payloadW "f") "1" rfl rfl
  ⟨rfl, h.1 true rfl, h.2.1 1 rfl, h.2.2.1 (.finite 1) (by decide), h.2.2.2.1⟩

/-- C3 counterexample: at the found value `a"b` (which does not parse as a
boolean) the boolean entry point's message is the Go-quoted raw value,
which is not the raw value merely wrapped in double quotes. -/
theorem type_mismatch_message_counterexample :
    (BooleanEvaluation (constClient (.ok (.str "a\"b"))) "f" false ctxW).1 =
      .ok ⟨false, .errorReason,
        some ⟨.typeMismatch, "\"a\\\"b\" is not a boolean"⟩⟩ ∧
    "\"a\\\"b\" is not a boolean" ≠ "\"" ++ "a\"b" ++ "\" is not a boolean" :=
  ⟨rfl, by decide⟩

/-- C3 (amended): for every found string value that fails to parse as the
statically expected scalar type, the boolean, integer and float entry
points return the caller's default, `Error` reason, and a `TypeMismatch`
error whose message is the `%q`-quoted raw value followed by
`is not a boolean` / `is not a int` / `is not a float` — which is the raw
value wrapped in double quotes whenever it contains no characters that
`%q` escapes. -/
theorem type_mismatch_messages (client : PosthogClient) (flag : String)
    (dvB : Bool) (dvI : Int) (dvF : GoFloat) (evalCtx : FlattenedContext)
    (p : FeatureFlagPayload) (s : String)
    (htr : translateFeatureFlagPayload evalCtx flag = .ok p)
    (hcl : client p = .ok (.str s)) :
    (goParseBool s = none →
      (BooleanEvaluation client flag dvB evalCtx).1 =
        .ok ⟨dvB, .errorReason,
          some ⟨.typeMismatch, goQuote s ++ " is not a boolean"⟩⟩) ∧
    (goParseInt s = none →
      (IntEvaluation client flag dvI evalCtx).1 =
        .ok ⟨dvI, .errorReason,
          some ⟨.typeMismatch, goQuote s ++ " is not a int"⟩⟩) ∧
    (goParseFloat s = none →
      (FloatEvaluation client flag dvF evalCtx).1 =
        .ok ⟨dvF, .errorReason,
          some ⟨.typeMismatch, goQuote s ++ " is not a float"⟩⟩) := by
  have hg : getFeatureFlag client p = .found (.str s) := by
    simp [getFeatureFlag, hcl]
  refine ⟨fun hb => ?_, fun hi => ?_, fun hf => ?_⟩
  · simp [BooleanEvaluation, htr, hg, parseFlagValueBool, hb]
  · simp [IntEvaluation, htr, hg, parseFlagValueInt, hi]
  · simp [FloatEvaluation, htr, hg, parseFlagValueFloat, hf]

/-- Witness for the amended C3 at the found value `"zzz"`, which parses as
none of the three scalar types. -/
theorem type_mismatch_messages_witness :
    (BooleanEvaluation (constClient (.ok (.str "zzz"))) "f" false ctxW).1 =
      .ok ⟨false, .errorReason,
        some ⟨.typeMismatch, goQuote "zzz" ++ " is not a boolean"⟩⟩ ∧
    (IntEvaluation (constClient (.ok (.str "zzz"))) "f" 0 ctxW).1 =
      .ok ⟨0, .errorReason,
        some ⟨.typeMismatch, goQuote "zzz" ++ " is not a int"⟩⟩ ∧
    (FloatEvaluation (constClient (.ok (.str "zzz"))) "f" .nan ctxW).1 =
      .ok ⟨.nan, .errorReason,
        some ⟨.typeMismatch, goQuote "zzz" ++ " is not a float"⟩⟩ :=
  have h := type_mismatch_messages (constClient (.ok (.str "zzz"))) "f"
    false 0 .nan ctxW (payloadW "f") "zzz" rfl rfl
  ⟨h.1 rfl, h.2.1 rfl, h.2.2 rfl⟩

/-- C5: `ObjectEvaluation` decodes the found string as a JSON object into
a string-keyed mapping — the example document decodes to
`name ↦ "jane doe", age ↦ 52.5` with `TargetingMatch` and no error — and a
found string that fails to decode yields the default with a `TypeMismatch`
error reading `invalid JSON as flag value` and `Error` reason. -/
theorem object_json_decoding (client : PosthogClient) (flag : String)
    (dvO : OVal) (evalCtx : FlattenedContext) (p : FeatureFlagPayload)
    (htr : translateFeatureFlagPayload evalCtx flag = .ok p) :
    (client p = .ok (.str "\x7b\"name\": \"jane doe\", \"age\": 52.5\x7d") →
      (ObjectEvaluation client flag dvO evalCtx).1 =
        .ok ⟨.map (some [("name", .str "jane doe"), ("age", .num (mkRat 105 2))]),
          .targetingMatchReason, none⟩) ∧
    (client p = .ok (.str "\x7binvalid json") →
      (ObjectEvaluation client flag dvO evalCtx).1 =
        .ok ⟨dvO, .errorReason,
          some ⟨.typeMismatch, "invalid JSON as flag value"⟩⟩) := by
  constructor
  · intro hcl
    have hg : getFeatureFlag client p =
        .found (.str "\x7b\"name\": \"jane doe\", \"age\": 52.5\x7d") := by
      simp [getFeatureFlag, hcl]
    have hm : goUnmarshalMap "\x7b\"name\": \"jane doe\", \"age\": 52.5\x7d" =
        some (some [("name", .str "jane doe"), ("age", .num (mkRat 105 2))]) := by
      rfl
    simp [ObjectEvaluation, htr, hg, hm]
  · intro hcl
    have hg : getFeatureFlag client p = .found (.str "\x7binvalid json") := by
      simp [getFeatureFlag, hcl]
    have hm : goUnmarshalMap "\x7binvalid json" = none := by rfl
    simp [ObjectEvaluation, htr, hg, hm]

/-- Witness for C5 at a concrete client for each of the two documents. -/
theorem object_json_decoding_witness :
    (ObjectEvaluation
        (constClient (.ok (.str "\x7b\"name\": \"jane doe\", \"age\": 52.5\x7d")))
        "f" (.json .null) ctxW).1 =
      .ok ⟨.map (some [("name", .str "jane doe"), ("age", .num (mkRat 105 2))]),
        .targetingMatchReason, none⟩ ∧
    (ObjectEvaluation (constClient (.ok (.str "\x7binvalid json")))
        "f" (.json .null) ctxW).1 =
      .ok ⟨.json .null, .errorReason,
        some ⟨.typeMismatch, "invalid JSON as flag value"⟩⟩ :=
  ⟨(object_json_decoding
      (constClient (.ok (.str "\x7b\"name\": \"jane doe\", \"age\": 52.5\x7d")))
      "f" (.json .null) ctxW (payloadW "f") rfl).1 rfl,
   (object_json_decoding (constClient (.ok (.str "\x7binvalid json")))
      "f" (.json .null) ctxW (payloadW "f") rfl).2 rfl⟩

/-- C10: for every found string that is valid JSON whose top-level value is
not an object, `ObjectEvaluation` yields the default with the
`TypeMismatch` error `invalid JSON as flag value` — except when the
top-level value is `null`, in which case decoding succeeds and the nil
mapping is returned with `TargetingMatch` and no error. -/
theorem object_non_object_json (client : PosthogClient) (flag : String)
    (dvO : OVal) (evalCtx : FlattenedContext) (p : FeatureFlagPayload)
    (s : String) (j : Json)
    (htr : translateFeatureFlagPayload evalCtx flag = .ok p)
    (hcl : client p = .ok (.str s))
    (hp : parseTopLevel s = some j)
    (hobj : ∀ kvs, j ≠ Json.obj kvs) :
    (j = Json.null →
      (ObjectEvaluation client flag dvO evalCtx).1 =
        .ok ⟨.map none, .targetingMatchReason, none⟩) ∧
    (j ≠ Json.null →
      (ObjectEvaluation client flag dvO evalCtx).1 =
        .ok ⟨dvO, .errorReason,
          some ⟨.typeMismatch, "invalid JSON as flag value"⟩⟩) := by
  have hg : getFeatureFlag client p = .found (.str s) := by
    simp [getFeatureFlag, hcl]
  constructor
  · intro hnull
    subst hnull
    have hm : goUnmarshalMap s = some none := by simp [goUnmarshalMap, hp]
    simp [ObjectEvaluation, htr, hg, hm]
  · intro hnn
    have hm : goUnmarshalMap s = none := by
      cases j with
      | null => exact absurd rfl hnn
      | obj kvs => exact absurd rfl (hobj kvs)
      | bool b => simp [goUnmarshalMap, hp]
      | num q => simp [goUnmarshalMap, hp]
      | str t => simp [goUnmarshalMap, hp]
      | arr elems => simp [goUnmarshalMap, hp]
    simp [ObjectEvaluation, htr, hg, hm]

/-- Witness for C10 at the valid, non-object documents `[1,2]` and
`null`. -/
theorem object_non_object_json_witness :
    parseTopLevel "[1,2]" = some (.arr [.num 1, .num 2]) ∧
    (ObjectEvaluation (constClient (.ok (.str "[1,2]"))) "f" (.json .null) ctxW).1 =
      .ok ⟨.json .null, .errorReason,
        some ⟨.typeMismatch, "invalid JSON as flag value"⟩⟩ ∧
    (ObjectEvaluation (constClient (.ok (.str "null"))) "f" (.json .null) ctxW).1 =
      .ok ⟨.map none, .targetingMatchReason, none⟩ :=
  ⟨rfl,
   (object_non_object_json (constClient (.ok (.str "[1,2]"))) "f" (.json .null)
      ctxW (payloadW "f") "[1,2]" (.arr [.num 1, .num 2]) rfl rfl rfl
      (fun _ h => Json.noConfusion h)).2 (fun h => Json.noConfusion h),
   (object_non_object_json (constClient (.ok (.str "null"))) "f" (.json .null)
      ctxW (payloadW "f") "null" .null rfl rfl rfl
      (fun _ h => Json.noConfusion h)).1 rfl⟩

/-- C6 counterexample: a found value that is neither a boolean nor a string
makes `ObjectEvaluation` fault (the unchecked `res.(string)` assertion
panics) rather than resolve to a `TypeMismatch` default. -/
theorem non_string_reply_counterexample :
    (ObjectEvaluation (constClient (.ok (.other "5"))) "f" (.json .null) ctxW).1 =
      .fault :=
  rfl

/-- C6 (amended): for every found value that is not a string, the four
scalar entry points return the caller's default with a `TypeMismatch`
error whose message is the value's rendering followed by
`is not a string`; the object entry point instead panics on the unchecked
`res.(string)` assertion, so its no-unhandled-fault guarantee holds only
when found values are strings. -/
theorem non_string_reply_type_mismatch (client : PosthogClient)
    (flag : String) (dvB : Bool) (dvI : Int) (dvF : GoFloat) (dvS : String)
    (dvO : OVal) (evalCtx : FlattenedContext) (p : FeatureFlagPayload)
    (r : String)
    (htr : translateFeatureFlagPayload evalCtx flag = .ok p)
    (hcl : client p = .ok (.other r)) :
    (BooleanEvaluation client flag dvB evalCtx).1 =
      .ok ⟨dvB, .errorReason, some ⟨.typeMismatch, r ++ " is not a string"⟩⟩ ∧
    (IntEvaluation client flag dvI evalCtx).1 =
      .ok ⟨dvI, .errorReason, some ⟨.typeMismatch, r ++ " is not a string"⟩⟩ ∧
    (FloatEvaluation client flag dvF evalCtx).1 =
      .ok ⟨dvF, .errorReason, some ⟨.typeMismatch, r ++ " is not a string"⟩⟩ ∧
    (StringEvaluation client flag dvS evalCtx).1 =
      .ok ⟨dvS, .errorReason, some ⟨.typeMismatch, r ++ " is not a string"⟩⟩ ∧
    (ObjectEvaluation client flag dvO evalCtx).1 = .fault := by
  have hg : getFeatureFlag client p = .found (.other r) := by
    simp [getFeatureFlag, hcl]
  refine ⟨?_, ?_, ?_, ?_, ?_⟩ <;>
    simp [BooleanEvaluation, IntEvaluation, FloatEvaluation, StringEvaluation,
      ObjectEvaluation, htr, hg, parseFlagValueBool, parseFlagValueInt,
      parseFlagValueFloat, parseFlagValueString, goDisplay]

/-- Witness for the amended C6 at a concrete non-string reply. -/
theorem non_string_reply_type_mismatch_witness :
    (BooleanEvaluation (constClient (.ok (.other "5"))) "f" false ctxW).1 =
      .ok ⟨false, .errorReason, some ⟨.typeMismatch, "5 is not a string"⟩⟩ ∧
    (StringEvaluation (constClient (.ok (.other "5"))) "f" "dv" ctxW).1 =
      .ok ⟨"dv", .errorReason, some ⟨.typeMismatch, "5 is not a string"⟩⟩ :=
  have h := non_string_reply_type_mismatch (constClient (.ok (.other "5")))
    "f" false 0 .nan "dv" (.json .null) ctxW (payloadW "f") "5" rfl rfl
  ⟨h.1, h.2.2.2.1⟩

/-- C7 counterexample: an evaluation context that contains the targeting
key (bound to a non-string value) with the `groups` and `properties` keys
absent — so both optional keys are "correctly typed or absent" — does not
map successfully: the unchecked `distinctID.(string)` assertion panics. -/
theorem context_mapping_counterexample :
    translateFeatureFlagPayload [(DistinctIDContextKey, CtxVal.other "42")] "f" =
      .fault ∧
    (BooleanEvaluation (constClient (.ok (.str "true"))) "f" false
      [(DistinctIDContextKey, CtxVal.other "42")]).1 = .fault :=
  ⟨rfl, rfl⟩

/-- C7 (amended): in a context containing the targeting key, a present but
wrongly typed `groups` value — or a present but wrongly typed `properties`
value when groups pass — fails context mapping, and every entry point
returns the default with a `General` error and `Error` reason; when both
optional keys are absent or correctly typed and the targeting value is a
string, mapping succeeds. -/
theorem context_mapping_checks (client : PosthogClient) (flag : String)
    (dvB : Bool) (dvI : Int) (dvF : GoFloat) (dvS : String) (dvO : OVal)
    (evalCtx : FlattenedContext) (tv : CtxVal)
    (hk : evalCtx.lookup DistinctIDContextKey = some tv) :
    (∀ gv, evalCtx.lookup GroupsContextKey = some gv →
      (∀ g, gv ≠ CtxVal.groups g) →
      translateFeatureFlagPayload evalCtx flag = .err .invalidGroups ∧
      (BooleanEvaluation client flag dvB evalCtx).1 =
        .ok ⟨dvB, .errorReason, some ⟨.general, GoErr.invalidGroups.message⟩⟩ ∧
      (IntEvaluation client flag dvI evalCtx).1 =
        .ok ⟨dvI, .errorReason, some ⟨.general, GoErr.invalidGroups.message⟩⟩ ∧
      (FloatEvaluation client flag dvF evalCtx).1 =
        .ok ⟨dvF, .errorReason, some ⟨.general, GoErr.invalidGroups.message⟩⟩ ∧
      (StringEvaluation client flag dvS evalCtx).1 =
        .ok ⟨dvS, .errorReason, some ⟨.general, GoErr.invalidGroups.message⟩⟩ ∧
      (ObjectEvaluation client flag dvO evalCtx).1 =
        .ok ⟨dvO, .errorReason, some ⟨.general, GoErr.invalidGroups.message⟩⟩) ∧
    (∀ pv, evalCtx.lookup PropertiesContextKey = some pv →
      (∀ q, pv ≠ CtxVal.props q) →
      (evalCtx.lookup GroupsContextKey = none ∨
        ∃ g, evalCtx.lookup GroupsContextKey = some (CtxVal.groups g)) →
      translateFeatureFlagPayload evalCtx flag = .err .invalidProperties ∧
      (BooleanEvaluation client flag dvB evalCtx).1 =
        .ok ⟨dvB, .errorReason, some ⟨.general, GoErr.invalidProperties.message⟩⟩ ∧
      (IntEvaluation client flag dvI evalCtx).1 =
        .ok ⟨dvI, .errorReason, some ⟨.general, GoErr.invalidProperties.message⟩⟩ ∧
      (FloatEvaluation client flag dvF evalCtx).1 =
        .ok ⟨dvF, .errorReason, some ⟨.general, GoErr.invalidProperties.message⟩⟩ ∧
      (StringEvaluation client flag dvS evalCtx).1 =
        .ok ⟨dvS, .errorReason, some ⟨.general, GoErr.invalidProperties.message⟩⟩ ∧
      (ObjectEvaluation client flag dvO evalCtx).1 =
        .ok ⟨dvO, .errorReason, some ⟨.general, GoErr.invalidProperties.message⟩⟩) ∧
    (∀ s, tv = CtxVal.str s →
      (evalCtx.lookup GroupsContextKey = none ∨
        ∃ g, evalCtx.lookup GroupsContextKey = some (CtxVal.groups g)) →
      (evalCtx.lookup PropertiesContextKey = none ∨
        ∃ q, evalCtx.lookup PropertiesContextKey = some (CtxVal.props q)) →
      ∃ payload, translateFeatureFlagPayload evalCtx flag = .ok payload) := by
  refine ⟨fun gv hgv hng => ?_, fun pv hpv hnp hgok => ?_, fun s hs hgok hpok => ?_⟩
  · have hlg : lookupGroups evalCtx = .error .invalidGroups := by
      cases gv with
      | groups g => exact absurd rfl (hng g)
      | str t => simp [lookupGroups, hgv]
      | props q => simp [lookupGroups, hgv]
      | other r => simp [lookupGroups, hgv]
    have htr : translateFeatureFlagPayload evalCtx flag = .err .invalidGroups := by
      simp [translateFeatureFlagPayload, hk, hlg]
    refine ⟨htr, ?_, ?_, ?_, ?_, ?_⟩ <;>
      simp [BooleanEvaluation, IntEvaluation, FloatEvaluation, StringEvaluation,
        ObjectEvaluation, htr]
  · have hlg : ∃ g, lookupGroups evalCtx = .ok g := by
      rcases hgok with hnone | ⟨g, hg⟩
      · exact ⟨[], by simp [lookupGroups, hnone]⟩
      · exact ⟨g, by simp [lookupGroups, hg]⟩
    obtain ⟨g, hlg⟩ := hlg
    have hlp : lookupProperties evalCtx = .error .invalidProperties := by
      cases pv with
      | props q => exact absurd rfl (hnp q)
      | str t => simp [lookupProperties, hpv]
      | groups q => simp [lookupProperties, hpv]
      | other r => simp [lookupProperties, hpv]
    have htr : translateFeatureFlagPayload evalCtx flag = .err .invalidProperties := by
      simp [translateFeatureFlagPayload, hk, hlg, hlp]
    refine ⟨htr, ?_, ?_, ?_, ?_, ?_⟩ <;>
      simp [BooleanEvaluation, IntEvaluation, FloatEvaluation, StringEvaluation,
        ObjectEvaluation, htr]
  · subst hs
    have hlg : ∃ g, lookupGroups evalCtx = .ok g := by
      rcases hgok with hnone | ⟨g, hg⟩
      · exact ⟨[], by simp [lookupGroups, hnone]⟩
      · exact ⟨g, by simp [lookupGroups, hg]⟩
    obtain ⟨g, hlg⟩ := hlg
    have hlp : ∃ q, lookupProperties evalCtx = .ok q := by
      rcases hpok with hnone | ⟨q, hq⟩
      · exact ⟨⟨[], []⟩, by simp [lookupProperties, hnone]⟩
      · exact ⟨q, by simp [lookupProperties, hq]⟩
    obtain ⟨q, hlp⟩ := hlp
    exact ⟨⟨flag, s, g, q.PersonProperties, q.GroupProperties⟩,
      by simp [translateFeatureFlagPayload, hk, hlg, hlp]⟩

/-- Witness for the amended C7: a wrongly typed `groups` value produces the
`General` error, and a well-typed context maps successfully. -/
theorem context_mapping_checks_witness :
    translateFeatureFlagPayload
      [(DistinctIDContextKey, CtxVal.str "id"), (GroupsContextKey, CtxVal.str "oops")]
      "f" = .err .invalidGroups ∧
    (BooleanEvaluation (constClient (.ok (.str "true"))) "f" false
      [(DistinctIDContextKey, CtxVal.str "id"), (GroupsContextKey, CtxVal.str "oops")]).1 =
      .ok ⟨false, .errorReason, some ⟨.general, GoErr.invalidGroups.message⟩⟩ ∧
    ∃ payload, translateFeatureFlagPayload ctxW "f" = .ok payload :=
  have h1 := context_mapping_checks (constClient (.ok (.str "true"))) "f"
    false 0 .nan "" (.json .null)
    [(DistinctIDContextKey, CtxVal.str "id"), (GroupsContextKey, CtxVal.str "oops")]
    (CtxVal.str "id") rfl
  have h2 := context_mapping_checks (constClient (.ok (.str "true"))) "f"
    false 0 .nan "" (.json .null) ctxW (CtxVal.str "12345") rfl
  have hg := h1.1 (CtxVal.str "oops") rfl (fun _ hgp => CtxVal.noConfusion hgp)
  ⟨hg.1, hg.2.1, h2.2.2 "12345" rfl (Or.inl rfl) (Or.inl rfl)⟩

end PosthogProvider
